import Mathlib

set_option maxHeartbeats 1000000

/-
Shallow embedding of the MTCNN face-detection cascade from
`FaceExtractor/MTCNN/MTCNN.py`.  Python/NumPy floating-point values are
modelled over `ℚ`; tensors of boxes/offsets/landmarks are modelled as lists;
the three neural networks are opaque functions supplied as parameters
(the repository treats them as pretrained black boxes).  The helpers imported
from `box_utils` and `first_stage` (`nms`, `calibrate_box`, `get_image_boxes`,
`convert_to_square`, `_generate_bboxes`) are not under `src/`; those
definitions are modelled from the spec (sections 4.2-4.4) and carry a
`Modelled from the spec:` doc comment.
-/

/-- A candidate face region: `xmin, ymin, xmax, ymax, score`
(one row of the `[n_boxes, 5]` arrays in `MTCNN.forward`). -/
structure Box where
  x1 : ℚ
  y1 : ℚ
  x2 : ℚ
  y2 : ℚ
  score : ℚ
deriving DecidableEq, Repr

/-- Regression deltas predicted by a network for one box
(one row of the `[n_boxes, 4]` offset arrays). -/
structure Offset where
  dx1 : ℚ
  dy1 : ℚ
  dx2 : ℚ
  dy2 : ℚ
deriving DecidableEq, Repr

/-- Facial keypoints: the 10 numbers of a row of the `[n_boxes, 10]`
landmark array, stored as columns `0:5` (x) and `5:10` (y). -/
structure Landmark where
  xs : List ℚ
  ys : List ℚ
deriving DecidableEq, Repr

/-- One row of the 9-column stage-1 array: columns `0:5` are the box and
score, columns `5:9` the P-Net offsets carried along to calibration. -/
structure BoxO where
  box : Box
  off : Offset
deriving DecidableEq, Repr

/-- One spatial position of the P-Net output maps: grid coordinates `(i, j)`,
the face probability `probs[i, j]` and the 4 offsets `offsets[:, i, j]`. -/
structure GridCell where
  i : ℕ
  j : ℕ
  prob : ℚ
  off : Offset
deriving DecidableEq, Repr

/-- An image tensor `[1, C, d2, d3]` reduced to its two spatial dimensions
and a pixel function (channels play no role in the cascade logic). -/
structure Image where
  d2 : ℕ
  d3 : ℕ
  pix : ℕ → ℕ → ℚ

/-- The argument of `MTCNN.forward`: its number of dimensions, the size of
dimension 0 (the batch), and the image carried in the spatial dimensions. -/
structure InputTensor where
  ndim : ℕ
  batch : ℕ
  img : Image

/-- The `MTCNN.__init__` configuration: `min_face_size`, the three
probability thresholds and the three NMS overlap thresholds. -/
structure Config where
  minFaceSize : ℚ
  t1 : ℚ
  t2 : ℚ
  t3 : ℚ
  n1 : ℚ
  n2 : ℚ
  n3 : ℚ

/-- The three pretrained networks, treated as opaque pure functions.
`pnet` maps a (normalized, resized) image to its dense output grid;
`rnet` and `onet` map one crop to its per-crop outputs; running them on a
batch is mapping them over the list of crops. -/
structure Nets where
  pnet : Image → List GridCell
  rnet : Image → Offset × ℚ
  onet : Image → Landmark × Offset × ℚ

/-- Failure modes of `MTCNN.forward`.  `invalidArgument` is the batch-size
assertion on line 52.  `vstackEmpty` is the `ValueError` that `np.vstack`
raises on an empty list (line 85).  `invalidInput` is the dimension-check
error that the spec postulates; no line of the source produces it. -/
inductive Err
  | invalidArgument
  | invalidInput
  | vstackEmpty
deriving DecidableEq, Repr

/-- `math.ceil` on a nonnegative rational, as a natural number. -/
def ceilN (q : ℚ) : ℕ := (Int.ceil q).toNat

/-- `np.round`: round half to even (banker's rounding), other values to the
nearest integer. -/
def npRound (q : ℚ) : ℚ :=
  if q - (Int.floor q : ℚ) = 1 / 2 then
    (if 2 ∣ Int.floor q then ((Int.floor q : ℤ) : ℚ) else ((Int.floor q + 1 : ℤ) : ℚ))
  else ((round q : ℤ) : ℚ)

/-- Interpolation modes of `F.interpolate`; the cascade only ever passes
`mode='bilinear'` (line 29). -/
inductive InterpMode
  | bilinear
  | nearest
deriving DecidableEq, Repr

/-- Clamp an integer coordinate into `[lo, hi]`. -/
def clampZ (v lo hi : ℤ) : ℤ := Max.max lo (Min.min v hi)

/-- Read a pixel with coordinates clamped to the image border. -/
def pixClamped (img : Image) (y x : ℤ) : ℚ :=
  img.pix (clampZ y 0 ((img.d2 : ℤ) - 1)).toNat (clampZ x 0 ((img.d3 : ℤ) - 1)).toNat

/-- Source coordinate of output position `o` when resampling a length-`inLen`
axis to length `outLen` (the `align_corners=False` convention of
`F.interpolate`). -/
def srcCoord (outLen inLen : ℕ) (o : ℕ) : ℚ :=
  ((o : ℚ) + 1 / 2) * (inLen : ℚ) / (outLen : ℚ) - 1 / 2

/-- Bilinear resampling of one output pixel. -/
def bilinearPix (img : Image) (sw sh : ℕ) (i j : ℕ) : ℚ :=
  let sy := srcCoord sw img.d2 i
  let sx := srcCoord sh img.d3 j
  let y0 := Int.floor sy
  let x0 := Int.floor sx
  let wy := sy - (y0 : ℚ)
  let wx := sx - (x0 : ℚ)
  (1 - wy) * ((1 - wx) * pixClamped img y0 x0 + wx * pixClamped img y0 (x0 + 1)) +
    wy * ((1 - wx) * pixClamped img (y0 + 1) x0 + wx * pixClamped img (y0 + 1) (x0 + 1))

/-- Nearest-neighbour resampling of one output pixel. -/
def nearestPix (img : Image) (sw sh : ℕ) (i j : ℕ) : ℚ :=
  pixClamped img (Int.floor (srcCoord sw img.d2 i)) (Int.floor (srcCoord sh img.d3 j))

/-- `F.interpolate(image, (sw, sh), mode)`: the output spatial dimensions are
exactly the requested `(sw, sh)`. -/
def interpolate (img : Image) (sw sh : ℕ) (mode : InterpMode) : Image :=
  ⟨sw, sh, fun i j =>
    match mode with
    | .bilinear => bilinearPix img sw sh i j
    | .nearest => nearestPix img sw sh i j⟩

/-- `MTCNN.normalize` (lines 42-43): `((image_01 * 255) - 127.5) * 0.0078125`. -/
def normalizeQ (p : ℚ) : ℚ := ((p * 255) - 127.5) * 0.0078125

/-- Pointwise application of `MTCNN.normalize` to an image tensor. -/
def normalizeImg (img : Image) : Image :=
  ⟨img.d2, img.d3, fun i j => normalizeQ (img.pix i j)⟩

/-- The two overlap modes of the NMS engine. -/
inductive NmsMode
  | union
  | min
deriving DecidableEq, Repr

/-- Modelled from the spec: box area with the inclusive pixel convention
`(xmax - xmin + 1) * (ymax - ymin + 1)` (spec section 4.3). -/
def boxArea (b : Box) : ℚ := (b.x2 - b.x1 + 1) * (b.y2 - b.y1 + 1)

/-- Modelled from the spec: intersection area of two boxes (clamped at 0). -/
def interArea (a b : Box) : ℚ :=
  let iw := Min.min a.x2 b.x2 - Max.max a.x1 b.x1 + 1
  let ih := Min.min a.y2 b.y2 - Max.max a.y1 b.y1 + 1
  Max.max iw 0 * Max.max ih 0

/-- Modelled from the spec: the overlap metric of `box_utils.nms` -
intersection over union for mode `union`, intersection over the smaller
area for mode `min` (spec section 4.3). -/
def overlapRatio (mode : NmsMode) (a b : Box) : ℚ :=
  match mode with
  | .union => interArea a b / (boxArea a + boxArea b - interArea a b)
  | .min => interArea a b / Min.min (boxArea a) (boxArea b)

/-- Highest-scoring candidate of `cur :: ps`; on score ties the later
element wins, matching a stable ascending sort processed from the end
(spec section 4.3 step 1). -/
def bestCand : (ℕ × Box) → List (ℕ × Box) → ℕ × Box
  | cur, [] => cur
  | cur, p :: ps => bestCand (if cur.2.score ≤ p.2.score then p else cur) ps

/-- Modelled from the spec: one greedy NMS round - keep the best remaining
box, drop every remaining box whose overlap with it strictly exceeds the
threshold, recurse.  The fuel starts at the pool size, which bounds the
number of rounds since each round removes the kept box from the pool. -/
def nmsGo (mode : NmsMode) (thr : ℚ) : ℕ → List (ℕ × Box) → List ℕ
  | 0, _ => []
  | _ + 1, [] => []
  | fuel + 1, p :: ps =>
    let b := bestCand p ps
    let rest := ((p :: ps).filter (fun q => q.1 ≠ b.1)).filter
      (fun q => overlapRatio mode b.2 q.2 ≤ thr)
    b.1 :: nmsGo mode thr fuel rest

/-- Pair each box with its position in the input array. -/
def withIdx : List Box → ℕ → List (ℕ × Box)
  | [], _ => []
  | b :: bs, i => (i, b) :: withIdx bs (i + 1)

/-- Modelled from the spec: `box_utils.nms` (spec section 4.3).  Returns the
kept indices, highest score first.  The default mode of the Python function
is `union`; every call site passes the mode explicitly here. -/
def nms (bs : List Box) (thr : ℚ) (mode : NmsMode) : List ℕ :=
  nmsGo mode thr bs.length (withIdx bs 0)

/-- Modelled from the spec: `box_utils.calibrate_box` for one box - each
corner is shifted by the offset times the box width (x) or height (y),
with the inclusive size convention; the score is preserved
(spec section 4.4). -/
def calibrateBox (b : Box) (o : Offset) : Box :=
  let w := b.x2 - b.x1 + 1
  let h := b.y2 - b.y1 + 1
  ⟨b.x1 + o.dx1 * w, b.y1 + o.dy1 * h, b.x2 + o.dx2 * w, b.y2 + o.dy2 * h, b.score⟩

/-- `calibrate_box` over index-aligned arrays. -/
def calibrateList (bs : List Box) (os : List Offset) : List Box :=
  List.zipWith calibrateBox bs os

/-- Modelled from the spec: `box_utils.convert_to_square` - the new side is
the larger of width and height and the box is re-centred on its original
centre, keeping the score (spec section 4.4). -/
def convertToSquare (b : Box) : Box :=
  let w := b.x2 - b.x1 + 1
  let h := b.y2 - b.y1 + 1
  let side := Max.max w h
  let nx1 := b.x1 + w / 2 - side / 2
  let ny1 := b.y1 + h / 2 - side / 2
  ⟨nx1, ny1, nx1 + side - 1, ny1 + side - 1, b.score⟩

/-- `bounding_boxes[:, 0:4] = np.round(bounding_boxes[:, 0:4])`
(lines 95 and 118): round the four coordinates, keep the score. -/
def roundBox (b : Box) : Box :=
  ⟨npRound b.x1, npRound b.y1, npRound b.x2, npRound b.y2, b.score⟩

/-- Modelled from the spec: whether a box survives crop extraction - after
clamping to the image bounds its width and height must be positive;
degenerate boxes are skipped (spec section 4.4). -/
def cropOK (img : Image) (b : Box) : Bool :=
  let x1 := Max.max (Int.floor b.x1) 0
  let y1 := Max.max (Int.floor b.y1) 0
  let x2 := Min.min (Int.floor b.x2) ((img.d3 : ℤ) - 1)
  let y2 := Min.min (Int.floor b.y2) ((img.d2 : ℤ) - 1)
  decide (x1 ≤ x2 ∧ y1 ≤ y2)

/-- Modelled from the spec: extract one crop - the clamped box region is
copied onto a zero-padded square canvas of the box side, then resized to
`size × size` (spec section 4.4). -/
def cropBox (img : Image) (size : ℕ) (b : Box) : Image :=
  let x1 := Int.floor b.x1
  let y1 := Int.floor b.y1
  let x2 := Int.floor b.x2
  let y2 := Int.floor b.y2
  let side := (Max.max (x2 - x1) (y2 - y1) + 1).toNat
  let canvas : Image :=
    ⟨side, side, fun i j =>
      let yy := y1 + (i : ℤ)
      let xx := x1 + (j : ℤ)
      if 0 ≤ yy ∧ yy ≤ Min.min y2 ((img.d2 : ℤ) - 1) ∧ 0 ≤ xx ∧
          xx ≤ Min.min x2 ((img.d3 : ℤ) - 1) then
        img.pix yy.toNat xx.toNat
      else 0⟩
  interpolate canvas size size .bilinear

/-- Modelled from the spec: `box_utils.get_image_boxes` - one crop per
surviving box, degenerate boxes skipped (spec section 4.4). -/
def getImageBoxes (bs : List Box) (img : Image) (size : ℕ) : List Image :=
  (bs.filter (fun b => cropOK img b)).map (cropBox img size)

/-- NumPy fancy indexing `xs[ks]`; all indices produced by `nms` and
`np.where` are in range, so the out-of-range case never fires. -/
def index {α : Type} (xs : List α) (ks : List ℕ) : List α :=
  ks.filterMap (fun k => xs[k]?)

/-- Positions (counting from `i`) of the entries strictly above `t`. -/
def whereGTAux (t : ℚ) : List ℚ → ℕ → List ℕ
  | [], _ => []
  | p :: ps, i =>
    if t < p then i :: whereGTAux t ps (i + 1) else whereGTAux t ps (i + 1)

/-- `np.where(probs > t)[0]`: the ascending indices of entries above `t`. -/
def whereGT (ps : List ℚ) (t : ℚ) : List ℕ := whereGTAux t ps 0

/-- `bounding_boxes[:, 4] = probs[keep, 1]` (lines 111 and 135): overwrite
the scores of index-aligned boxes. -/
def setScores (bs : List Box) (ps : List ℚ) : List Box :=
  List.zipWith (fun b p => { b with score := p }) bs ps

/-- `factor = 0.707` (line 59). -/
def pyrFactor : ℚ := 707 / 1000

/-- The scale-pyramid loop of lines 70-74: while the scaled minimum length
exceeds the minimum detection size 12, emit `m * factor ^ k` and shrink by
`factor`.  The fuel only bounds the number of iterations (the loop exits
by its condition); `scalesOf` passes a fuel that provably exceeds the
number of iterations. -/
def scaleLoop (m : ℚ) : ℚ → ℕ → ℕ → List ℚ
  | _, _, 0 => []
  | x, k, fuel + 1 =>
    if 12 < x then m * pyrFactor ^ k :: scaleLoop m (x * pyrFactor) (k + 1) fuel
    else []

/-- Lines 55-74 of `MTCNN.forward`: `m = 12 / min_face_size`,
`min_length = min(height, width) * m`, then the emission loop. -/
def scalesOf (L minFace : ℚ) : List ℚ :=
  scaleLoop (12 / minFace) (L * (12 / minFace)) 0 (L * (12 / minFace)).num.toNat

/-- Modelled from the spec: `first_stage._generate_bboxes` - one candidate
box per grid position whose probability strictly exceeds the threshold,
converted to original-image coordinates with stride 2 and cell size 12
(spec sections 4.2 and 4.0: box `[round(j*2/s), round(i*2/s),
round((j*2+11)/s), round((i*2+11)/s)]`), carrying score and offsets. -/
def genBboxes (cells : List GridCell) (scale thr : ℚ) : List BoxO :=
  (cells.filter (fun c => thr < c.prob)).map (fun c =>
    ⟨⟨npRound ((2 * (c.j : ℚ)) / scale), npRound ((2 * (c.i : ℚ)) / scale),
      npRound ((2 * (c.j : ℚ) + 11) / scale), npRound ((2 * (c.i : ℚ) + 11) / scale),
      c.prob⟩, c.off⟩)

/-- Lines 27-29 of `run_first_stage`: resize the image to
`(ceil(shape2 * scale), ceil(shape3 * scale))` with bilinear interpolation. -/
def resizedOf (img : Image) (scale : ℚ) : Image :=
  interpolate img (ceilN ((img.d2 : ℚ) * scale)) (ceilN ((img.d3 : ℚ) * scale)) .bilinear

/-- Lines 30-33: normalize the resized image and run P-Net on it. -/
def pnetGrid (nets : Nets) (img : Image) (scale : ℚ) : List GridCell :=
  nets.pnet (normalizeImg (resizedOf img scale))

/-- P-Net, R-Net, O-Net. -/
inductive NetId
  | pnet
  | rnet
  | onet
deriving DecidableEq, Repr

/-- The operations of one cascade run, in execution order, each tagged with
its stage (1, 2 or 3); recorded exactly where the corresponding source line
runs. -/
inductive Ev
  | resize (stage sw sh : ℕ) (mode : InterpMode)
  | normalizeEv (stage : ℕ)
  | runNet (stage : ℕ) (net : NetId)
  | thresholdFilter (stage : ℕ)
  | nmsCall (stage : ℕ) (thr : ℚ) (mode : NmsMode)
  | calibrateCall (stage : ℕ)
  | squareRound (stage : ℕ)
  | cropExtract (stage size : ℕ)
  | landmarkReproject (stage : ℕ)
deriving DecidableEq, Repr

/-- `MTCNN.run_first_stage` (lines 26-40): resize, normalize, run P-Net,
generate thresholded boxes; return `None` when no box was generated,
otherwise the boxes kept by an NMS pass at overlap threshold 0.5
(the Python default mode, `union`).  Also returns the recorded trace. -/
def runFirstStage (nets : Nets) (img : Image) (scale thr : ℚ) :
    Option (List BoxO) × List Ev :=
  let sw := ceilN ((img.d2 : ℚ) * scale)
  let sh := ceilN ((img.d3 : ℚ) * scale)
  let boxes := genBboxes (pnetGrid nets img scale) scale thr
  let evs := [Ev.resize 1 sw sh .bilinear, Ev.normalizeEv 1, Ev.runNet 1 .pnet,
    Ev.thresholdFilter 1]
  if boxes = [] then (none, evs)
  else (some (index boxes (nms (boxes.map BoxO.box) (1 / 2) .union)),
    evs ++ [Ev.nmsCall 1 (1 / 2) .union])

/-- Lines 55-74: the scale pyramid of a forward run, built from
`min(height, width)` and the configured `min_face_size`. -/
def pyramidScales (cfg : Config) (img : Image) : List ℚ :=
  scalesOf ((Min.min img.d2 img.d3 : ℕ) : ℚ) cfg.minFaceSize

/-- Lines 79-81: one `run_first_stage` call per scale. -/
def stage1runs (cfg : Config) (nets : Nets) (img : Image) :
    List (Option (List BoxO) × List Ev) :=
  (pyramidScales cfg img).map (fun s => runFirstStage nets img s cfg.t1)

/-- Line 84: drop the `None` entries of the per-scale results. -/
def stage1collected (cfg : Config) (nets : Nets) (img : Image) : List (List BoxO) :=
  ((stage1runs cfg nets img).map Prod.fst).reduceOption

/-- Line 85: `np.vstack` of the per-scale box arrays (the error case is in
`stage1`). -/
def stage1merged (cfg : Config) (nets : Nets) (img : Image) : List BoxO :=
  (stage1collected cfg nets img).flatten

/-- Line 87: cross-scale NMS on columns `0:5` at `nms_thresholds[0]`,
default mode `union`. -/
def stage1keep (cfg : Config) (nets : Nets) (img : Image) : List ℕ :=
  nms ((stage1merged cfg nets img).map BoxO.box) cfg.n1 .union

/-- Lines 88-95: keep the NMS survivors, calibrate with the carried P-Net
offsets, convert to square and round the coordinates. -/
def stage1boxes (cfg : Config) (nets : Nets) (img : Image) : List Box :=
  let bb := index (stage1merged cfg nets img) (stage1keep cfg nets img)
  ((calibrateList (bb.map BoxO.box) (bb.map BoxO.off)).map convertToSquare).map roundBox

/-- Stage 1 of `MTCNN.forward` (lines 55-95).  When every scale produced
`None` (in particular when the pyramid is empty), line 85 `np.vstack([])`
raises a `ValueError`, modelled as `Err.vstackEmpty`. -/
def stage1 (cfg : Config) (nets : Nets) (img : Image) :
    Except Err (List Box) × List Ev :=
  let evs := ((stage1runs cfg nets img).map Prod.snd).flatten
  if stage1collected cfg nets img = [] then (.error .vstackEmpty, evs)
  else
    (.ok (stage1boxes cfg nets img),
      evs ++ [Ev.nmsCall 1 cfg.n1 .union, Ev.calibrateCall 1, Ev.squareRound 1])

/-- Lines 101-107: extract the 24x24 crops and run R-Net on each, giving a
per-crop offset row and face probability (`probs[:, 1]`). -/
def stage2outs (nets : Nets) (img : Image) (bb : List Box) : List (Offset × ℚ) :=
  (getImageBoxes bb img 24).map nets.rnet

/-- Line 109: `np.where(probs[:, 1] > thresholds[1])[0]`. -/
def stage2keep (cfg : Config) (nets : Nets) (img : Image) (bb : List Box) : List ℕ :=
  whereGT ((stage2outs nets img bb).map Prod.snd) cfg.t2

/-- Lines 110-112: the surviving boxes (scores overwritten with the R-Net
probabilities) and the surviving offsets, both indexed by `keep`. -/
def stage2post (cfg : Config) (nets : Nets) (img : Image) (bb : List Box) :
    List Box × List Offset :=
  (setScores (index bb (stage2keep cfg nets img bb))
      (index ((stage2outs nets img bb).map Prod.snd) (stage2keep cfg nets img bb)),
    index ((stage2outs nets img bb).map Prod.fst) (stage2keep cfg nets img bb))

/-- Line 114: stage-2 NMS at `nms_thresholds[1]`, default mode `union`. -/
def stage2keepNms (cfg : Config) (nets : Nets) (img : Image) (bb : List Box) : List ℕ :=
  nms (stage2post cfg nets img bb).1 cfg.n2 .union

/-- Lines 115-118: keep the NMS survivors, calibrate with `offsets[keep]`,
convert to square, round. -/
def stage2boxes (cfg : Config) (nets : Nets) (img : Image) (bb : List Box) : List Box :=
  ((calibrateList (index (stage2post cfg nets img bb).1 (stage2keepNms cfg nets img bb))
      (index (stage2post cfg nets img bb).2 (stage2keepNms cfg nets img bb))).map
    convertToSquare).map roundBox

/-- Stage 2 of `MTCNN.forward` (lines 97-118), with its recorded trace. -/
def stage2 (cfg : Config) (nets : Nets) (img : Image) (bb : List Box) :
    List Box × List Ev :=
  (stage2boxes cfg nets img bb,
    [Ev.cropExtract 2 24, Ev.runNet 2 .rnet, Ev.thresholdFilter 2,
      Ev.nmsCall 2 cfg.n2 .union, Ev.calibrateCall 2, Ev.squareRound 2])

/-- Line 122: the 48x48 crops of stage 3. -/
def stage3crops (img : Image) (bb : List Box) : List Image :=
  getImageBoxes bb img 48

/-- Lines 126-131: run O-Net on each crop: landmark row, offset row and face
probability. -/
def stage3outs (nets : Nets) (img : Image) (bb : List Box) :
    List (Landmark × Offset × ℚ) :=
  (stage3crops img bb).map nets.onet

/-- Line 133: `np.where(probs[:, 1] > thresholds[2])[0]`. -/
def stage3keep (cfg : Config) (nets : Nets) (img : Image) (bb : List Box) : List ℕ :=
  whereGT ((stage3outs nets img bb).map (fun o => o.2.2)) cfg.t3

/-- Lines 134-135: surviving boxes with scores overwritten by the O-Net
probabilities. -/
def stage3bb1 (cfg : Config) (nets : Nets) (img : Image) (bb : List Box) : List Box :=
  setScores (index bb (stage3keep cfg nets img bb))
    (index ((stage3outs nets img bb).map (fun o => o.2.2)) (stage3keep cfg nets img bb))

/-- Line 136: `offsets[keep]`. -/
def stage3offs1 (cfg : Config) (nets : Nets) (img : Image) (bb : List Box) :
    List Offset :=
  index ((stage3outs nets img bb).map (fun o => o.2.1)) (stage3keep cfg nets img bb)

/-- Line 137: `landmarks[keep]`. -/
def stage3lms1 (cfg : Config) (nets : Nets) (img : Image) (bb : List Box) :
    List Landmark :=
  index ((stage3outs nets img bb).map (fun o => o.1)) (stage3keep cfg nets img bb)

/-- Lines 139-144: reproject one landmark row into absolute coordinates
using the geometry of its (pre-calibration) box:
`width = xmax - xmin + 1`, `height = ymax - ymin + 1`,
`x = xmin + width * lx`, `y = ymin + height * ly`. -/
def reprojectLm (b : Box) (lm : Landmark) : Landmark :=
  let width := b.x2 - b.x1 + 1
  let height := b.y2 - b.y1 + 1
  ⟨lm.xs.map (fun v => b.x1 + width * v), lm.ys.map (fun v => b.y1 + height * v)⟩

/-- Lines 139-144 over the index-aligned arrays. -/
def stage3lms2 (cfg : Config) (nets : Nets) (img : Image) (bb : List Box) :
    List Landmark :=
  List.zipWith reprojectLm (stage3bb1 cfg nets img bb) (stage3lms1 cfg nets img bb)

/-- Line 146: calibrate the surviving boxes with `offsets`. -/
def stage3bb2 (cfg : Config) (nets : Nets) (img : Image) (bb : List Box) : List Box :=
  calibrateList (stage3bb1 cfg nets img bb) (stage3offs1 cfg nets img bb)

/-- Line 147: the final NMS at `nms_thresholds[2]` with `mode='min'`,
applied to the calibrated boxes. -/
def stage3keep2 (cfg : Config) (nets : Nets) (img : Image) (bb : List Box) : List ℕ :=
  nms (stage3bb2 cfg nets img bb) cfg.n3 .min

/-- Lines 148-151: the returned pair `(bounding_boxes, landmarks)`. -/
def stage3result (cfg : Config) (nets : Nets) (img : Image) (bb : List Box) :
    List Box × List Landmark :=
  (index (stage3bb2 cfg nets img bb) (stage3keep2 cfg nets img bb),
    index (stage3lms2 cfg nets img bb) (stage3keep2 cfg nets img bb))

/-- Stage 3 of `MTCNN.forward` (lines 120-151): if no crop was extracted the
run returns the empty pair at once (lines 123-124), otherwise O-Net,
threshold filter, landmark reprojection, calibration and the final NMS. -/
def stage3 (cfg : Config) (nets : Nets) (img : Image) (bb : List Box) :
    (List Box × List Landmark) × List Ev :=
  if (stage3crops img bb).length = 0 then (([], []), [Ev.cropExtract 3 48])
  else
    (stage3result cfg nets img bb,
      [Ev.cropExtract 3 48, Ev.runNet 3 .onet, Ev.thresholdFilter 3,
        Ev.landmarkReproject 3, Ev.calibrateCall 3, Ev.nmsCall 3 cfg.n3 .min])

/-- Lines 55-151 of `MTCNN.forward`: the whole cascade after the batch
check, with the concatenated trace. -/
def forwardCore (cfg : Config) (nets : Nets) (img : Image) :
    Except Err (List Box × List Landmark) × List Ev :=
  match stage1 cfg nets img with
  | (.error e, ev) => (.error e, ev)
  | (.ok b1, ev1) =>
    let r2 := stage2 cfg nets img b1
    let r3 := stage3 cfg nets img r2.1
    (.ok r3.1, ev1 ++ r2.2 ++ r3.2)

/-- `MTCNN.forward` (lines 49-151): a 3-dimensional input is unsqueezed to
batch size 1; the assertion on line 52 rejects any other batch size. -/
def forward (cfg : Config) (nets : Nets) (inp : InputTensor) :
    Except Err (List Box × List Landmark) × List Ev :=
  let b := if inp.ndim = 3 then 1 else inp.batch
  if b ≠ 1 then (.error .invalidArgument, [])
  else forwardCore cfg nets inp.img

/-- The default configuration of `MTCNN.__init__`:
`min_face_size=20.0, thresholds=(0.6, 0.7, 0.8),
nms_thresholds=(0.7, 0.7, 0.7)`. -/
def cfgDefault : Config := ⟨20, 3/5, 7/10, 4/5, 7/10, 7/10, 7/10⟩

/-- The default thresholds with `min_face_size = 12`, so that a 13x13 image
yields a one-scale pyramid. -/
def cfgRun : Config := ⟨12, 3/5, 7/10, 4/5, 7/10, 7/10, 7/10⟩

/-- Networks that never report a face. -/
def netsTriv : Nets :=
  ⟨fun _ => [], fun _ => (⟨0, 0, 0, 0⟩, 0), fun _ => (⟨[], []⟩, ⟨0, 0, 0, 0⟩, 0)⟩

/-- A 10x10 all-zero image: too small for the default `min_face_size = 20`,
so the scale pyramid is empty. -/
def inp10 : InputTensor := ⟨3, 1, ⟨10, 10, fun _ _ => 0⟩⟩

/-- A 5x0 image: one spatial dimension is zero. -/
def inpZero : InputTensor := ⟨3, 1, ⟨5, 0, fun _ _ => 0⟩⟩

/-- A 13x13 all-zero image (one-scale pyramid under `cfgRun`). -/
def img13 : Image := ⟨13, 13, fun _ _ => 0⟩

/-- Stub networks for a benign complete run on `img13`: P-Net reports one
confident grid cell at the unscaled resolution, R-Net and O-Net confirm
every crop with zero offsets and centred landmarks. -/
def netsBenign : Nets :=
  ⟨fun im => if im.d2 = 13 then [⟨0, 0, 9/10, ⟨0, 0, 0, 0⟩⟩] else [],
    fun _ => (⟨0, 0, 0, 0⟩, 99/100),
    fun _ => (⟨[1/2, 1/2, 1/2, 1/2, 1/2], [1/2, 1/2, 1/2, 1/2, 1/2]⟩,
      ⟨0, 0, 0, 0⟩, 99/100)⟩

/-- The benign 13x13 input. -/
def inpBenign : InputTensor := ⟨3, 1, img13⟩

/-- A 17x17 all-zero image (two-scale pyramid under `cfgRun`). -/
def img17 : Image := ⟨17, 17, fun _ _ => 0⟩

/-- Stub networks for a desynchronizing run on `img17`: P-Net reports two
confident cells, the first carrying offsets `(0, 0, -2, -2)` that calibrate
its box into a degenerate one, which crop extraction then skips. -/
def netsDesync : Nets :=
  ⟨fun im => if im.d2 = 17 then
      [⟨0, 0, 9/10, ⟨0, 0, -2, -2⟩⟩, ⟨0, 2, 95/100, ⟨0, 0, 0, 0⟩⟩] else [],
    fun _ => (⟨0, 0, 0, 0⟩, 99/100),
    fun _ => (⟨[1/2, 1/2, 1/2, 1/2, 1/2], [1/2, 1/2, 1/2, 1/2, 1/2]⟩,
      ⟨0, 0, 0, 0⟩, 99/100)⟩

/-- The stage-1 survivors of the desynchronizing run. -/
def desyncB1 : List Box :=
  ((stage1 cfgRun netsDesync img17).1).toOption.getD []

lemma pyrFactor_pos : (0 : ℚ) < pyrFactor := by norm_num [pyrFactor]

lemma pyrFactor_lt_one : pyrFactor < 1 := by norm_num [pyrFactor]

/-- The stopping condition of the pyramid loop eventually holds: the scaled
minimum length drops to 12 or below after finitely many shrinks. -/
lemma exists_scaleStop (x : ℚ) : ∃ k : ℕ, x * pyrFactor ^ k ≤ 12 := by
  rcases le_or_lt x 12 with h | h
  · exact ⟨0, by simpa using h⟩
  · have hx : (0 : ℚ) < x := lt_trans (by norm_num) h
    obtain ⟨n, hn⟩ := exists_pow_lt_of_lt_one
      (show (0 : ℚ) < 12 / x by positivity) pyrFactor_lt_one
    refine ⟨n, le_of_lt ?_⟩
    have h2 : pyrFactor ^ n * x < 12 := (lt_div_iff₀ hx).mp hn
    linarith

/-- The number of iterations the pyramid loop performs when started with
scaled minimum length `x`. -/
def stopIndex (x : ℚ) : ℕ := Nat.find (exists_scaleStop x)

lemma stopIndex_le {x : ℚ} {n : ℕ} (h : x * pyrFactor ^ n ≤ 12) : stopIndex x ≤ n :=
  Nat.find_min' _ h

lemma stopIndex_spec (x : ℚ) : x * pyrFactor ^ stopIndex x ≤ 12 :=
  Nat.find_spec (exists_scaleStop x)

lemma stopIndex_min {x : ℚ} {k : ℕ} (h : k < stopIndex x) : 12 < x * pyrFactor ^ k :=
  lt_of_not_le (Nat.find_min (exists_scaleStop x) h)

lemma stopIndex_eq_zero {x : ℚ} (h : x ≤ 12) : stopIndex x = 0 :=
  Nat.le_zero.mp (stopIndex_le (by simpa using h))

lemma stopIndex_succ {x : ℚ} (h : 12 < x) :
    stopIndex x = stopIndex (x * pyrFactor) + 1 := by
  refine (Nat.find_eq_iff _).mpr ⟨?_, ?_⟩
  · calc x * pyrFactor ^ (stopIndex (x * pyrFactor) + 1)
        = (x * pyrFactor) * pyrFactor ^ stopIndex (x * pyrFactor) := by ring
      _ ≤ 12 := stopIndex_spec (x * pyrFactor)
  · intro n hn
    match n with
    | 0 => simpa using h
    | j + 1 =>
      have hj : j < stopIndex (x * pyrFactor) := by omega
      have hgt := stopIndex_min hj
      intro hle
      have : (x * pyrFactor) * pyrFactor ^ j ≤ 12 := by
        calc (x * pyrFactor) * pyrFactor ^ j = x * pyrFactor ^ (j + 1) := by ring
          _ ≤ 12 := hle
      linarith

/-- `n * 0.707 ^ n` never exceeds 12, so a fuel of `n` suffices for a loop
started at a value at most `n`. -/
lemma nat_mul_pow_le (n : ℕ) : (n : ℚ) * pyrFactor ^ n ≤ 12 := by
  induction n with
  | zero => norm_num
  | succ k ih =>
    have hf : (0 : ℚ) ≤ pyrFactor := pyrFactor_pos.le
    have h1 : pyrFactor ^ k ≤ 1 := pow_le_one₀ hf pyrFactor_lt_one.le
    have l1 : pyrFactor * ((k : ℚ) * pyrFactor ^ k) ≤ pyrFactor * 12 :=
      mul_le_mul_of_nonneg_left ih hf
    have l2 : pyrFactor * pyrFactor ^ k ≤ pyrFactor * 1 :=
      mul_le_mul_of_nonneg_left h1 hf
    have e : ((k : ℚ) + 1) * pyrFactor ^ (k + 1)
        = pyrFactor * ((k : ℚ) * pyrFactor ^ k) + pyrFactor * pyrFactor ^ k := by
      ring
    push_cast
    rw [e]
    calc pyrFactor * ((k : ℚ) * pyrFactor ^ k) + pyrFactor * pyrFactor ^ k
        ≤ pyrFactor * 12 + pyrFactor * 1 := add_le_add l1 l2
      _ ≤ 12 := by norm_num [pyrFactor]

/-- A rational is at most the cast of `num.toNat`. -/
lemma rat_le_num_toNat (x : ℚ) : x ≤ ((x.num.toNat : ℕ) : ℚ) := by
  rcases le_or_lt x 0 with h | h
  · exact le_trans h (by positivity)
  · have hnum : 0 < x.num := Rat.num_pos.mpr h
    have hcast : ((x.num.toNat : ℕ) : ℚ) = ((x.num : ℤ) : ℚ) := by
      rw [← Int.cast_natCast, Int.toNat_of_nonneg hnum.le]
    rw [hcast]
    conv_lhs => rw [← Rat.num_div_den x]
    have hden : (1 : ℚ) ≤ (x.den : ℚ) := by
      have := x.pos
      exact_mod_cast this
    exact div_le_self (by exact_mod_cast hnum.le) hden

/-- The fuel `(L * m).num.toNat` used by `scalesOf` exceeds the number of
iterations of the loop. -/
lemma stopIndex_le_fuel (x : ℚ) : stopIndex x ≤ x.num.toNat := by
  apply stopIndex_le
  rcases le_or_lt x 0 with h | h
  · have hpow : (0 : ℚ) ≤ pyrFactor ^ x.num.toNat := pow_nonneg pyrFactor_pos.le _
    have := mul_nonpos_iff.mpr (Or.inr ⟨h, hpow⟩)
    linarith
  · have h1 : x ≤ ((x.num.toNat : ℕ) : ℚ) := rat_le_num_toNat x
    have h2 : x * pyrFactor ^ x.num.toNat
        ≤ ((x.num.toNat : ℕ) : ℚ) * pyrFactor ^ x.num.toNat :=
      mul_le_mul_of_nonneg_right h1 (pow_nonneg pyrFactor_pos.le _)
    exact le_trans h2 (nat_mul_pow_le _)

/-- With sufficient fuel the pyramid loop computes the geometric sequence
`m * factor ^ (k + j)` for `j` ranging over the loop's iteration count. -/
lemma scaleLoop_eq (m : ℚ) :
    ∀ (fuel : ℕ) (x : ℚ) (k : ℕ), stopIndex x ≤ fuel →
      scaleLoop m x k fuel
        = (List.range (stopIndex x)).map (fun j => m * pyrFactor ^ (k + j)) := by
  intro fuel
  induction fuel with
  | zero =>
    intro x k h
    have h0 : stopIndex x = 0 := Nat.le_zero.mp h
    simp [scaleLoop, h0]
  | succ f ih =>
    intro x k h
    by_cases hx : 12 < x
    · have hsucc := stopIndex_succ hx
      have hle : stopIndex (x * pyrFactor) ≤ f := by omega
      rw [scaleLoop, if_pos hx, ih (x * pyrFactor) (k + 1) hle, hsucc,
        List.range_succ_eq_map, List.map_cons, List.map_map]
      refine congrArg₂ _ (by rw [Nat.add_zero]) ?_
      refine List.map_congr_left (fun j _ => ?_)
      simp only [Function.comp]
      have hj : k + 1 + j = k + j.succ := by omega
      rw [hj]
    · rw [scaleLoop, if_neg hx, stopIndex_eq_zero (not_lt.mp hx)]
      simp

/-- `scalesOf` in closed form: the geometric sequence `m * factor ^ j`. -/
lemma scalesOf_eq (L minFace : ℚ) :
    scalesOf L minFace
      = (List.range (stopIndex (L * (12 / minFace)))).map
          (fun j => (12 / minFace) * pyrFactor ^ j) := by
  unfold scalesOf
  rw [scaleLoop_eq _ _ _ _ (stopIndex_le_fuel _)]
  exact List.map_congr_left (fun j _ => by rw [Nat.zero_add])

/-- C2: for a positive image min-dimension `L` and `min_face_size > 0`, the
scale pyramid of lines 55-74 is exactly the geometric sequence
`m * 0.707 ^ k` for `k < K` with `m = 12 / min_face_size`, where `K` is the
least index at which `L * m * 0.707 ^ K ≤ 12` (the emission stops,
exclusively, once the scaled min-length is at most the minimum detection
size 12); the sequence is strictly decreasing (largest first, hence without
duplicates) and its length is logarithmically bounded:
`K ≤ n` as soon as `L * m ≤ 12 * (1000/707) ^ n`. -/
theorem scales_pyramid_geometric (L minFace : ℚ) (hL : 0 < L) (hFace : 0 < minFace) :
    scalesOf L minFace
        = (List.range (stopIndex (L * (12 / minFace)))).map
            (fun k => (12 / minFace) * pyrFactor ^ k)
      ∧ L * (12 / minFace) * pyrFactor ^ stopIndex (L * (12 / minFace)) ≤ 12
      ∧ (∀ j < stopIndex (L * (12 / minFace)),
          12 < L * (12 / minFace) * pyrFactor ^ j)
      ∧ List.Pairwise (fun a b => b < a) (scalesOf L minFace)
      ∧ (scalesOf L minFace).Nodup
      ∧ (∀ n : ℕ, L * (12 / minFace) ≤ 12 * (1000 / 707 : ℚ) ^ n →
          stopIndex (L * (12 / minFace)) ≤ n) := by
  have hm : (0 : ℚ) < 12 / minFace := by positivity
  have hpw : List.Pairwise (fun a b => b < a) (scalesOf L minFace) := by
    rw [scalesOf_eq]
    rw [List.pairwise_map]
    refine (List.pairwise_lt_range _).imp ?_
    intro i j hij
    exact mul_lt_mul_of_pos_left
      (pow_lt_pow_right_of_lt_one₀ pyrFactor_pos pyrFactor_lt_one hij) hm
  refine ⟨scalesOf_eq L minFace, stopIndex_spec _, fun j hj => stopIndex_min hj,
    hpw, hpw.imp (fun h => ne_of_gt h), ?_⟩
  intro n hn
  apply stopIndex_le
  have hpf : (0 : ℚ) ≤ pyrFactor ^ n := pow_nonneg pyrFactor_pos.le n
  have hone : (1000 / 707 : ℚ) ^ n * pyrFactor ^ n = 1 := by
    rw [← mul_pow]
    norm_num [pyrFactor]
  calc L * (12 / minFace) * pyrFactor ^ n
      ≤ 12 * (1000 / 707 : ℚ) ^ n * pyrFactor ^ n := mul_le_mul_of_nonneg_right hn hpf
    _ = 12 * ((1000 / 707 : ℚ) ^ n * pyrFactor ^ n) := by ring
    _ = 12 := by rw [hone, mul_one]

/-- Witness for `scales_pyramid_geometric` at the spec's own example
(section 8, property 4): a 640-pixel min-dimension and the default
`min_face_size = 20`. -/
theorem scales_pyramid_geometric_witness :
    (0 : ℚ) < 640 ∧ (0 : ℚ) < 20 ∧ (scalesOf 640 20).Nodup :=
  ⟨by norm_num, by norm_num,
    (scales_pyramid_geometric 640 20 (by norm_num) (by norm_num)).2.2.2.2.1⟩

/-- `stage1` can only fail with the `np.vstack` error. -/
lemma stage1_fst_error {cfg : Config} {nets : Nets} {img : Image} {e : Err}
    (h : (stage1 cfg nets img).1 = .error e) : e = .vstackEmpty := by
  unfold stage1 at h
  by_cases hc : stage1collected cfg nets img = []
  · simp only [if_pos hc] at h
    exact (Except.error.inj h).symm
  · simp only [if_neg hc] at h
    exact absurd h (by simp)

/-- `forwardCore` never raises the batch-size assertion. -/
lemma forwardCore_ne_invalidArgument (cfg : Config) (nets : Nets) (img : Image) :
    (forwardCore cfg nets img).1 ≠ .error .invalidArgument := by
  unfold forwardCore
  rcases hs : stage1 cfg nets img with ⟨r, ev⟩
  rcases r with e | b1
  · have he : (stage1 cfg nets img).1 = .error e := by rw [hs]
    have := stage1_fst_error he
    subst this
    simp
  · simp

/-- C7: `forward` fails with the batch-size assertion exactly when the input
is not 3-dimensional and its batch dimension is not 1; otherwise (in
particular for a 4-dimensional input of batch size 1) it proceeds into the
cascade body unchanged. -/
theorem forward_batch_size_contract (cfg : Config) (nets : Nets) (inp : InputTensor) :
    ((forward cfg nets inp).1 = .error .invalidArgument
        ↔ inp.ndim ≠ 3 ∧ inp.batch ≠ 1)
      ∧ forward cfg nets inp
          = if inp.ndim ≠ 3 ∧ inp.batch ≠ 1 then (.error .invalidArgument, [])
            else forwardCore cfg nets inp.img := by
  have hcore := forwardCore_ne_invalidArgument cfg nets inp.img
  unfold forward
  by_cases h3 : inp.ndim = 3 <;> by_cases hb : inp.batch = 1 <;>
    simp [h3, hb, hcore]

/-- C8: the pixel normalization run before every network call is the pure
affine map `(p * 255 - 127.5) * 0.0078125`, applied pointwise; it sends a
`[0, 1]`-range pixel strictly inside `(-1, 1)` and is centred (value 0 at
pixel value 1/2). -/
theorem normalize_affine_map (p : ℚ) (img : Image) (i j : ℕ) :
    normalizeQ p = (p * 255 - 127.5) * 0.0078125
      ∧ (normalizeImg img).pix i j = normalizeQ (img.pix i j)
      ∧ normalizeQ (1 / 2) = 0
      ∧ (0 ≤ p → p ≤ 1 → -1 < normalizeQ p ∧ normalizeQ p < 1) := by
  refine ⟨rfl, rfl, by norm_num [normalizeQ], fun h0 h1 => ?_⟩
  unfold normalizeQ
  constructor <;> nlinarith

/-- Witness for `normalize_affine_map` at pixel value 1/2. -/
theorem normalize_affine_map_witness :
    ((0 : ℚ) ≤ 1 / 2 ∧ (1 / 2 : ℚ) ≤ 1)
      ∧ (-1 < normalizeQ (1 / 2) ∧ normalizeQ (1 / 2) < 1) :=
  ⟨⟨by norm_num, by norm_num⟩,
    (normalize_affine_map (1 / 2) ⟨1, 1, fun _ _ => 0⟩ 0 0).2.2.2
      (by norm_num) (by norm_num)⟩

/-- C9: for every scale, the first stage resizes the image to exactly
`ceil(d2 * s) x ceil(d3 * s)` with bilinear interpolation, and the P-Net
grid is computed from the normalization of that resized image; in the
recorded trace the resize strictly precedes the normalization, which
strictly precedes the P-Net call. -/
theorem first_stage_resize_shape (nets : Nets) (img : Image) (s t : ℚ) :
    (resizedOf img s).d2 = ceilN ((img.d2 : ℚ) * s)
      ∧ (resizedOf img s).d3 = ceilN ((img.d3 : ℚ) * s)
      ∧ pnetGrid nets img s = nets.pnet (normalizeImg (resizedOf img s))
      ∧ ∃ rest, (runFirstStage nets img s t).2
          = Ev.resize 1 (ceilN ((img.d2 : ℚ) * s)) (ceilN ((img.d3 : ℚ) * s)) .bilinear
            :: Ev.normalizeEv 1 :: Ev.runNet 1 .pnet :: rest := by
  refine ⟨rfl, rfl, rfl, ?_⟩
  unfold runFirstStage
  by_cases hb : genBboxes (pnetGrid nets img s) s t = []
  · exact ⟨[Ev.thresholdFilter 1], by simp [hb]⟩
  · exact ⟨[Ev.thresholdFilter 1, Ev.nmsCall 1 (1 / 2) .union], by simp [hb]⟩

/-- C10: within each single-scale proposal run, the generated boxes get an
additional NMS pass at the fixed overlap threshold 0.5 in the default
`union` mode, applied to that scale's boxes alone; the run yields `None`
exactly when no grid position passes the stage-1 threshold, and the
cross-scale candidate set collects exactly the non-`None` per-scale
results. -/
theorem first_stage_per_scale_nms (cfg : Config) (nets : Nets) (img : Image) (s t : ℚ) :
    (runFirstStage nets img s t).1
        = (if genBboxes (pnetGrid nets img s) s t = [] then none
           else some (index (genBboxes (pnetGrid nets img s) s t)
             (nms ((genBboxes (pnetGrid nets img s) s t).map BoxO.box) (1 / 2) .union)))
      ∧ ((runFirstStage nets img s t).1 = none
          ↔ ∀ c ∈ pnetGrid nets img s, c.prob ≤ t)
      ∧ stage1collected cfg nets img
          = ((pyramidScales cfg img).map
              (fun sc => (runFirstStage nets img sc cfg.t1).1)).reduceOption
      ∧ stage1merged cfg nets img = (stage1collected cfg nets img).flatten := by
  have h1 : (runFirstStage nets img s t).1
      = (if genBboxes (pnetGrid nets img s) s t = [] then none
         else some (index (genBboxes (pnetGrid nets img s) s t)
           (nms ((genBboxes (pnetGrid nets img s) s t).map BoxO.box) (1 / 2) .union))) := by
    unfold runFirstStage
    by_cases hb : genBboxes (pnetGrid nets img s) s t = [] <;> simp [hb]
  refine ⟨h1, ?_, ?_, rfl⟩
  · rw [h1]
    by_cases hb : genBboxes (pnetGrid nets img s) s t = []
    · simp only [if_pos hb, true_iff]
      intro c hc
      have hfil : (pnetGrid nets img s).filter (fun c => decide (t < c.prob)) = [] := by
        unfold genBboxes at hb
        exact List.map_eq_nil_iff.mp hb
      have := List.filter_eq_nil_iff.mp hfil c hc
      simpa using this
    · simp only [if_neg hb]
      constructor
      · intro h
        exact absurd h (by simp)
      · intro hall
        exfalso
        apply hb
        unfold genBboxes
        rw [List.filter_eq_nil_iff.mpr ?_, List.map_nil]
        intro c hc
        simpa using hall c hc
  · unfold stage1collected stage1runs
    rw [List.map_map]
    rfl

/-- The claim's landmark-reprojection formula, stated from the spec text
independently of the source lines: `x_abs = xmin + width * lx` with
`width = xmax - xmin + 1`, and `y_abs = ymin + height * ly` with
`height = ymax - ymin + 1`. -/
def reprojectClaim (b : Box) (lm : Landmark) : Landmark :=
  ⟨lm.xs.map (fun lx => b.x1 + (b.x2 - b.x1 + 1) * lx),
    lm.ys.map (fun ly => b.y1 + (b.y2 - b.y1 + 1) * ly)⟩

/-- The source's reprojection (lines 139-144) computes exactly the claim's
formula. -/
lemma reprojectLm_eq_claim : reprojectLm = reprojectClaim := rfl

/-- C5: in stage 3, the returned landmarks are the reprojections of the raw
landmark rows through the pre-calibration box geometry (the claim's
formula), selected by the final NMS; the returned boxes are the calibrated
boxes selected by the same NMS, and that NMS runs on the calibrated
boxes. -/
theorem stage3_landmarks_before_calibration (cfg : Config) (nets : Nets) (img : Image)
    (bb : List Box) (h : (stage3crops img bb).length ≠ 0) :
    (stage3 cfg nets img bb).1
        = (index (calibrateList (stage3bb1 cfg nets img bb) (stage3offs1 cfg nets img bb))
             (stage3keep2 cfg nets img bb),
           index (List.zipWith reprojectClaim (stage3bb1 cfg nets img bb)
               (stage3lms1 cfg nets img bb))
             (stage3keep2 cfg nets img bb))
      ∧ stage3keep2 cfg nets img bb
          = nms (calibrateList (stage3bb1 cfg nets img bb) (stage3offs1 cfg nets img bb))
              cfg.n3 .min := by
  constructor
  · unfold stage3
    rw [if_neg h]
    unfold stage3result stage3lms2 stage3bb2
    rw [reprojectLm_eq_claim]
  · rfl

/-- The stage tag of a trace event. -/
def evTag : Ev → ℕ
  | .resize s _ _ _ => s
  | .normalizeEv s => s
  | .runNet s _ => s
  | .thresholdFilter s => s
  | .nmsCall s _ _ => s
  | .calibrateCall s => s
  | .squareRound s => s
  | .cropExtract s _ => s
  | .landmarkReproject s => s

/-- Whether an event is one of the five operations named by the stage
contract (network run, threshold filter, NMS, calibration,
square-and-round) belonging to stage `s`. -/
def isStageOp (s : ℕ) : Ev → Bool
  | .runNet t _ => t == s
  | .thresholdFilter t => t == s
  | .nmsCall t _ _ => t == s
  | .calibrateCall t => t == s
  | .squareRound t => t == s
  | _ => false

/-- The subsequence of a trace consisting of stage `s`'s contract
operations, in execution order. -/
def stageOps (s : ℕ) (tr : List Ev) : List Ev := tr.filter (isStageOp s)

lemma isStageOp_false_of_tag {s : ℕ} {e : Ev} (h : evTag e ≠ s) :
    isStageOp s e = false := by
  cases e <;> simp [isStageOp, evTag] at h ⊢ <;> simp [h]

lemma stageOps_append (s : ℕ) (l1 l2 : List Ev) :
    stageOps s (l1 ++ l2) = stageOps s l1 ++ stageOps s l2 :=
  List.filter_append _ _

/-- Every event recorded by a per-scale proposal run is one of the five
stage-1 events of `runFirstStage`. -/
lemma runFirstStage_trace_mem {nets : Nets} {img : Image} {s t : ℚ} {e : Ev}
    (h : e ∈ (runFirstStage nets img s t).2) :
    e = Ev.resize 1 (ceilN ((img.d2 : ℚ) * s)) (ceilN ((img.d3 : ℚ) * s)) .bilinear
      ∨ e = Ev.normalizeEv 1 ∨ e = Ev.runNet 1 .pnet ∨ e = Ev.thresholdFilter 1
      ∨ e = Ev.nmsCall 1 (1 / 2) .union := by
  unfold runFirstStage at h
  by_cases hb : genBboxes (pnetGrid nets img s) s t = []
  · simp only [if_pos hb, List.mem_cons, List.not_mem_nil, or_false] at h
    rcases h with h | h | h | h <;> subst h <;> norm_num
  · simp only [if_neg hb, List.mem_append, List.mem_cons, List.not_mem_nil,
      or_false] at h
    rcases h with (h | h | h | h) | h <;> subst h <;> norm_num

/-- All per-scale trace events carry stage tag 1. -/
lemma stage1runs_trace_tag {cfg : Config} {nets : Nets} {img : Image} {e : Ev}
    (h : e ∈ ((stage1runs cfg nets img).map Prod.snd).flatten) : evTag e = 1 := by
  rw [List.mem_flatten] at h
  obtain ⟨l, hl, hel⟩ := h
  rw [List.mem_map] at hl
  obtain ⟨run, hrun, rfl⟩ := hl
  rw [stage1runs, List.mem_map] at hrun
  obtain ⟨sc, _, rfl⟩ := hrun
  rcases runFirstStage_trace_mem hel with h | h | h | h | h <;> subst h <;> rfl

/-- All stage-1 trace events carry stage tag 1. -/
lemma stage1_trace_tag {cfg : Config} {nets : Nets} {img : Image} {e : Ev}
    (h : e ∈ (stage1 cfg nets img).2) : evTag e = 1 := by
  unfold stage1 at h
  by_cases hc : stage1collected cfg nets img = []
  · rw [if_pos hc] at h
    exact stage1runs_trace_tag h
  · rw [if_neg hc] at h
    rcases List.mem_append.mp h with h | h
    · exact stage1runs_trace_tag h
    · simp only [List.mem_cons, List.not_mem_nil, or_false] at h
      rcases h with h | h | h <;> subst h <;> rfl

lemma stageOps_nil_of_tag {s t : ℕ} {tr : List Ev} (htag : ∀ e ∈ tr, evTag e = t)
    (hne : t ≠ s) : stageOps s tr = [] := by
  refine List.filter_eq_nil_iff.mpr (fun e he => ?_)
  rw [isStageOp_false_of_tag (by rw [htag e he]; exact hne)]
  simp

lemma stageOps_stage1_nil (s : ℕ) {cfg : Config} {nets : Nets} {img : Image}
    (hne : s ≠ 1) : stageOps s (stage1 cfg nets img).2 = [] :=
  stageOps_nil_of_tag (fun _ he => stage1_trace_tag he) (fun h => hne h.symm)

/-- The five-fold shape of any per-scale trace event, hiding the resize
dimensions. -/
lemma stage1runs_trace_mem {cfg : Config} {nets : Nets} {img : Image} {e : Ev}
    (h : e ∈ ((stage1runs cfg nets img).map Prod.snd).flatten) :
    (∃ a b, e = Ev.resize 1 a b .bilinear) ∨ e = Ev.normalizeEv 1
      ∨ e = Ev.runNet 1 .pnet ∨ e = Ev.thresholdFilter 1
      ∨ e = Ev.nmsCall 1 (1 / 2) .union := by
  rw [List.mem_flatten] at h
  obtain ⟨l, hl, hel⟩ := h
  rw [List.mem_map] at hl
  obtain ⟨run, hrun, rfl⟩ := hl
  rw [stage1runs, List.mem_map] at hrun
  obtain ⟨sc, _, rfl⟩ := hrun
  rcases runFirstStage_trace_mem hel with h | h | h | h | h
  · exact Or.inl ⟨_, _, h⟩
  · exact Or.inr (Or.inl h)
  · exact Or.inr (Or.inr (Or.inl h))
  · exact Or.inr (Or.inr (Or.inr (Or.inl h)))
  · exact Or.inr (Or.inr (Or.inr (Or.inr h)))

/-- When stage 1 succeeds, its trace is the per-scale traces followed by the
cross-scale NMS, calibration and square-round events. -/
lemma stage1_trace_of_ok {cfg : Config} {nets : Nets} {img : Image} {b1 : List Box}
    {ev1 : List Ev} (hs : stage1 cfg nets img = (.ok b1, ev1)) :
    ev1 = ((stage1runs cfg nets img).map Prod.snd).flatten
      ++ [Ev.nmsCall 1 cfg.n1 .union, Ev.calibrateCall 1, Ev.squareRound 1] := by
  unfold stage1 at hs
  by_cases hc : stage1collected cfg nets img = []
  · rw [if_pos hc] at hs
    exact absurd (congrArg Prod.fst hs) (by simp)
  · rw [if_neg hc] at hs
    exact (congrArg Prod.snd hs).symm

/-- C4 (amended): in every completed cascade run, stage 2's operations occur
in the order network run, threshold filter, NMS (`union`, threshold
`nms_thresholds[1]`), calibration, square-and-round; stage 3's operations
occur in the order network run, threshold filter, calibration, NMS (`min`,
threshold `nms_thresholds[2]`) - unless stage 3 found no crops and the run
returned the empty pair; and stage 1 ends with cross-scale NMS (`union`),
calibration and square-and-round after its per-scale proposal events. -/
theorem cascade_stage_order (cfg : Config) (nets : Nets) (inp : InputTensor)
    (r : List Box × List Landmark) (tr : List Ev)
    (h : forward cfg nets inp = (.ok r, tr)) :
    stageOps 2 tr
        = [Ev.runNet 2 .rnet, Ev.thresholdFilter 2, Ev.nmsCall 2 cfg.n2 .union,
           Ev.calibrateCall 2, Ev.squareRound 2]
      ∧ (stageOps 3 tr
            = [Ev.runNet 3 .onet, Ev.thresholdFilter 3, Ev.calibrateCall 3,
               Ev.nmsCall 3 cfg.n3 .min]
          ∨ (stageOps 3 tr = [] ∧ r = ([], [])))
      ∧ ∃ pre, stageOps 1 tr
            = pre ++ [Ev.nmsCall 1 cfg.n1 .union, Ev.calibrateCall 1, Ev.squareRound 1]
          ∧ ∀ e ∈ pre, e = Ev.runNet 1 .pnet ∨ e = Ev.thresholdFilter 1
              ∨ e = Ev.nmsCall 1 (1 / 2) .union := by
  have h : forwardCore cfg nets inp.img = (.ok r, tr) := by
    unfold forward at h
    by_cases hcond : (if inp.ndim = 3 then 1 else inp.batch) ≠ 1
    · rw [if_pos hcond] at h
      exact absurd (congrArg Prod.fst h) (by simp)
    · rwa [if_neg hcond] at h
  unfold forwardCore at h
  rcases hs : stage1 cfg nets inp.img with ⟨res1, ev1⟩
  rw [hs] at h
  rcases res1 with e | b1
  · simp at h
  simp only [Prod.mk.injEq, Except.ok.injEq] at h
  obtain ⟨hr, htr⟩ := h
  subst htr
  set img := inp.img
  set b2 := (stage2 cfg nets img b1).1 with hb2
  have hev2 : (stage2 cfg nets img b1).2
      = [Ev.cropExtract 2 24, Ev.runNet 2 .rnet, Ev.thresholdFilter 2,
         Ev.nmsCall 2 cfg.n2 .union, Ev.calibrateCall 2, Ev.squareRound 2] := rfl
  have hev1 : (stage1 cfg nets img).2 = ev1 := by rw [hs]
  have hops1 : ∀ s : ℕ, s ≠ 1 → stageOps s ev1 = [] := by
    intro s hns
    rw [← hev1]
    exact stageOps_stage1_nil s hns
  refine ⟨?_, ?_, ?_⟩
  · rw [stageOps_append, stageOps_append, hops1 2 (by norm_num), hev2]
    by_cases h3 : (stage3crops img b2).length = 0
    · unfold stage3
      rw [if_pos h3]
      rfl
    · unfold stage3
      rw [if_neg h3]
      rfl
  · by_cases h3 : (stage3crops img b2).length = 0
    · refine Or.inr ⟨?_, ?_⟩
      · rw [stageOps_append, stageOps_append, hops1 3 (by norm_num), hev2]
        unfold stage3
        rw [if_pos h3]
        rfl
      · rw [← hr]
        unfold stage3
        rw [if_pos h3]
    · refine Or.inl ?_
      rw [stageOps_append, stageOps_append, hops1 3 (by norm_num), hev2]
      unfold stage3
      rw [if_neg h3]
      rfl
  · have htr1 := stage1_trace_of_ok hs
    refine ⟨stageOps 1 (((stage1runs cfg nets img).map Prod.snd).flatten), ?_, ?_⟩
    · rw [stageOps_append, stageOps_append, htr1, stageOps_append]
      have hev3 : stageOps 1 (stage3 cfg nets img b2).2 = [] := by
        by_cases h3 : (stage3crops img b2).length = 0
        · unfold stage3; rw [if_pos h3]; rfl
        · unfold stage3; rw [if_neg h3]; rfl
      rw [hev2, hev3]
      simp [stageOps, List.filter, isStageOp]
    · intro e he
      have hmem := List.mem_filter.mp he
      rcases stage1runs_trace_mem hmem.1 with ⟨a, b, hres⟩ | h' | h' | h' | h'
      · subst hres
        exact absurd hmem.2 (by simp [isStageOp])
      · subst h'
        exact absurd hmem.2 (by simp [isStageOp])
      · exact Or.inl h'
      · exact Or.inr (Or.inl h')
      · exact Or.inr (Or.inr h')

/-- Fancy indexing with in-range indices keeps the index count. -/
lemma index_length {α : Type} : ∀ {ks : List ℕ} {xs : List α},
    (∀ k ∈ ks, k < xs.length) → (index xs ks).length = ks.length := by
  intro ks
  induction ks with
  | nil => intro xs _; rfl
  | cons k ks ih =>
    intro xs h
    have hk : k < xs.length := h k (by simp)
    have hstep : index xs (k :: ks) = xs[k] :: index xs ks := by
      unfold index
      rw [List.filterMap_cons, List.getElem?_eq_getElem hk]
    rw [hstep, List.length_cons, ih (fun j hj => h j (by simp [hj])),
      List.length_cons]

lemma whereGTAux_lt {t : ℚ} : ∀ {ps : List ℚ} {i k : ℕ},
    k ∈ whereGTAux t ps i → k < i + ps.length := by
  intro ps
  induction ps with
  | nil => intro i k h; cases h
  | cons p ps ih =>
    intro i k h
    unfold whereGTAux at h
    by_cases hp : t < p
    · rw [if_pos hp] at h
      rcases List.mem_cons.mp h with rfl | h
      · simp
      · have := ih h
        simp only [List.length_cons]
        omega
    · rw [if_neg hp] at h
      have := ih h
      simp only [List.length_cons]
      omega

/-- `np.where` indices are in range. -/
lemma whereGT_lt {ps : List ℚ} {t : ℚ} {k : ℕ} (h : k ∈ whereGT ps t) :
    k < ps.length := by
  have := whereGTAux_lt h
  simpa using this

lemma bestCand_mem : ∀ (ps : List (ℕ × Box)) (cur : ℕ × Box),
    bestCand cur ps ∈ cur :: ps := by
  intro ps
  induction ps with
  | nil => intro cur; simp [bestCand]
  | cons p ps ih =>
    intro cur
    have hstep : bestCand cur (p :: ps)
        = bestCand (if cur.2.score ≤ p.2.score then p else cur) ps := rfl
    rw [hstep]
    rcases List.mem_cons.mp (ih (if cur.2.score ≤ p.2.score then p else cur)) with h | h
    · rw [h]
      by_cases hc : cur.2.score ≤ p.2.score
      · rw [if_pos hc]
        exact List.mem_cons_of_mem _ (List.mem_cons_self _ _)
      · rw [if_neg hc]
        exact List.mem_cons_self _ _
    · exact List.mem_cons_of_mem _ (List.mem_cons_of_mem _ h)

lemma nmsGo_mem {mode : NmsMode} {thr : ℚ} : ∀ (fuel : ℕ) (pool : List (ℕ × Box))
    (k : ℕ), k ∈ nmsGo mode thr fuel pool → ∃ p ∈ pool, p.1 = k := by
  intro fuel
  induction fuel with
  | zero => intro pool k h; cases h
  | succ f ih =>
    intro pool k h
    match pool with
    | [] => cases h
    | p :: ps =>
      simp only [nmsGo] at h
      rcases List.mem_cons.mp h with rfl | h
      · exact ⟨bestCand p ps, bestCand_mem ps p, rfl⟩
      · obtain ⟨q, hq, hqk⟩ := ih _ k h
        exact ⟨q, List.mem_of_mem_filter (List.mem_of_mem_filter hq), hqk⟩

lemma withIdx_fst_lt : ∀ (bs : List Box) (i : ℕ) (p : ℕ × Box),
    p ∈ withIdx bs i → p.1 < i + bs.length := by
  intro bs
  induction bs with
  | nil => intro i p h; cases h
  | cons b bs ih =>
    intro i p h
    rw [withIdx] at h
    rcases List.mem_cons.mp h with rfl | h
    · simp
    · have := ih (i + 1) p h
      simp only [List.length_cons]
      omega

/-- NMS keep indices are positions of the input array. -/
lemma nms_mem_lt {bs : List Box} {thr : ℚ} {mode : NmsMode} {k : ℕ}
    (h : k ∈ nms bs thr mode) : k < bs.length := by
  obtain ⟨p, hp, rfl⟩ := nmsGo_mem _ _ _ h
  have := withIdx_fst_lt bs 0 p hp
  simpa using this

/-- When every box survives clamping, crop extraction is one-to-one. -/
lemma getImageBoxes_length {bs : List Box} {img : Image} {size : ℕ}
    (h : ∀ b ∈ bs, cropOK img b = true) :
    (getImageBoxes bs img size).length = bs.length := by
  unfold getImageBoxes
  rw [List.length_map, List.filter_eq_self.mpr h]

/-- A successful `forwardCore` run factors through the three stages. -/
lemma forwardCore_result_eq {cfg : Config} {nets : Nets} {img : Image}
    {r : List Box × List Landmark} (h : (forwardCore cfg nets img).1 = .ok r) :
    ∃ b1, (stage1 cfg nets img).1 = .ok b1
      ∧ r = (stage3 cfg nets img (stage2boxes cfg nets img b1)).1 := by
  unfold forwardCore at h
  rcases hsp : stage1 cfg nets img with ⟨res1, ev1⟩
  rw [hsp] at h
  rcases res1 with e | b1
  · exact absurd h (by simp)
  · exact ⟨b1, rfl, (Except.ok.inj h).symm⟩

/-- C6 (amended): provided crop extraction skips no candidate (every box
reaching it has positive clamped dimensions), the parallel arrays stay
index-aligned with equal lengths: the stage-2 network outputs match the
stage-2 input boxes one to one, the post-threshold box/offset (and, in
stage 3, landmark) arrays have equal lengths, the final NMS applies one
common index selection to boxes and landmarks, and the returned pair has
equal lengths. -/
theorem candidate_arrays_aligned (cfg : Config) (nets : Nets) (img : Image)
    (b1 : List Box)
    (h1 : (stage1 cfg nets img).1 = .ok b1)
    (h2 : ∀ b ∈ b1, cropOK img b = true)
    (h3 : ∀ b ∈ stage2boxes cfg nets img b1, cropOK img b = true) :
    (stage2outs nets img b1).length = b1.length
      ∧ ((stage2post cfg nets img b1).1).length = ((stage2post cfg nets img b1).2).length
      ∧ ((stage3bb1 cfg nets img (stage2boxes cfg nets img b1)).length
            = (stage3offs1 cfg nets img (stage2boxes cfg nets img b1)).length
          ∧ (stage3bb1 cfg nets img (stage2boxes cfg nets img b1)).length
            = (stage3lms1 cfg nets img (stage2boxes cfg nets img b1)).length)
      ∧ ((stage3result cfg nets img (stage2boxes cfg nets img b1)).1).length
          = ((stage3result cfg nets img (stage2boxes cfg nets img b1)).2).length
      ∧ (∃ sel,
          (stage3result cfg nets img (stage2boxes cfg nets img b1)).1
              = index (stage3bb2 cfg nets img (stage2boxes cfg nets img b1)) sel
            ∧ (stage3result cfg nets img (stage2boxes cfg nets img b1)).2
              = index (stage3lms2 cfg nets img (stage2boxes cfg nets img b1)) sel)
      ∧ (∀ r, (forwardCore cfg nets img).1 = .ok r → r.1.length = r.2.length) := by
  generalize hb2g : stage2boxes cfg nets img b1 = b2 at h3 ⊢
  have hcrops2 : (getImageBoxes b1 img 24).length = b1.length := getImageBoxes_length h2
  have houts2 : (stage2outs nets img b1).length = b1.length := by
    rw [stage2outs, List.length_map, hcrops2]
  have hprobs2 : ((stage2outs nets img b1).map Prod.snd).length = b1.length := by
    rw [List.length_map, houts2]
  have hoffs2 : ((stage2outs nets img b1).map Prod.fst).length = b1.length := by
    rw [List.length_map, houts2]
  have hkeep2lt : ∀ k ∈ stage2keep cfg nets img b1, k < b1.length := by
    intro k hk
    have := whereGT_lt hk
    rwa [hprobs2] at this
  have hpost1 : ((stage2post cfg nets img b1).1).length
      = (stage2keep cfg nets img b1).length := by
    simp only [stage2post]
    rw [setScores, List.length_zipWith, index_length hkeep2lt,
      index_length (fun k hk => lt_of_lt_of_eq (hkeep2lt k hk) hprobs2.symm)]
    exact Nat.min_self _
  have hpost2 : ((stage2post cfg nets img b1).2).length
      = (stage2keep cfg nets img b1).length := by
    simp only [stage2post]
    exact index_length (fun k hk => lt_of_lt_of_eq (hkeep2lt k hk) hoffs2.symm)
  -- stage 3
  have hcrops3 : (stage3crops img b2).length = b2.length := getImageBoxes_length h3
  have houts3 : (stage3outs nets img b2).length = b2.length := by
    rw [stage3outs, List.length_map, hcrops3]
  have hprobs3 : ((stage3outs nets img b2).map (fun o => o.2.2)).length = b2.length := by
    rw [List.length_map, houts3]
  have hoffs3 : ((stage3outs nets img b2).map (fun o => o.2.1)).length = b2.length := by
    rw [List.length_map, houts3]
  have hlms3 : ((stage3outs nets img b2).map (fun o => o.1)).length = b2.length := by
    rw [List.length_map, houts3]
  have hkeep3lt : ∀ k ∈ stage3keep cfg nets img b2, k < b2.length := by
    intro k hk
    have := whereGT_lt hk
    rwa [hprobs3] at this
  have hbb1len : (stage3bb1 cfg nets img b2).length
      = (stage3keep cfg nets img b2).length := by
    rw [stage3bb1, setScores, List.length_zipWith, index_length hkeep3lt,
      index_length (fun k hk => lt_of_lt_of_eq (hkeep3lt k hk) hprobs3.symm)]
    exact Nat.min_self _
  have hoffs1len : (stage3offs1 cfg nets img b2).length
      = (stage3keep cfg nets img b2).length := by
    rw [stage3offs1]
    exact index_length (fun k hk => lt_of_lt_of_eq (hkeep3lt k hk) hoffs3.symm)
  have hlms1len : (stage3lms1 cfg nets img b2).length
      = (stage3keep cfg nets img b2).length := by
    rw [stage3lms1]
    exact index_length (fun k hk => lt_of_lt_of_eq (hkeep3lt k hk) hlms3.symm)
  have hbb2len : (stage3bb2 cfg nets img b2).length
      = (stage3keep cfg nets img b2).length := by
    rw [stage3bb2, calibrateList, List.length_zipWith, hbb1len, hoffs1len]
    exact Nat.min_self _
  have hlms2len : (stage3lms2 cfg nets img b2).length
      = (stage3keep cfg nets img b2).length := by
    rw [stage3lms2, List.length_zipWith, hbb1len, hlms1len]
    exact Nat.min_self _
  have hkeep2lt3 : ∀ k ∈ stage3keep2 cfg nets img b2, k < (stage3bb2 cfg nets img b2).length :=
    fun k hk => nms_mem_lt hk
  have hres : ((stage3result cfg nets img b2).1).length
      = ((stage3result cfg nets img b2).2).length := by
    simp only [stage3result]
    rw [index_length hkeep2lt3,
      index_length (fun k hk => lt_of_lt_of_eq (hkeep2lt3 k hk)
        (hbb2len.trans hlms2len.symm))]
  refine ⟨houts2, hpost1.trans hpost2.symm,
    ⟨hbb1len.trans hoffs1len.symm, hbb1len.trans hlms1len.symm⟩, hres,
    ⟨stage3keep2 cfg nets img b2, rfl, rfl⟩, ?_⟩
  intro r hr
  obtain ⟨b1x, hb1x, hreq⟩ := forwardCore_result_eq hr
  have hbb : b1x = b1 := by
    rw [h1] at hb1x
    exact Except.ok.inj hb1x.symm
  subst hbb
  rw [hb2g] at hreq
  rw [hreq]
  by_cases hcrop : (stage3crops img b2).length = 0
  · have h0 : (stage3 cfg nets img b2).1 = ([], []) := by
      unfold stage3
      rw [if_pos hcrop]
    rw [h0]
    rfl
  · have h0 : (stage3 cfg nets img b2).1 = stage3result cfg nets img b2 := by
      unfold stage3
      rw [if_neg hcrop]
    rw [h0]
    exact hres

/-- A loop started at or below the detection size emits nothing, whatever
the fuel. -/
lemma scaleLoop_stop {m x : ℚ} {k : ℕ} (h : x ≤ 12) :
    ∀ fuel, scaleLoop m x k fuel = []
  | 0 => rfl
  | fuel + 1 => by rw [scaleLoop, if_neg (not_lt.mpr h)]

/-- The pyramid is empty as soon as the scaled min-length starts at or
below 12. -/
lemma scalesOf_eq_nil {L minFace : ℚ} (h : L * (12 / minFace) ≤ 12) :
    scalesOf L minFace = [] :=
  scaleLoop_stop h _

/-- A zero spatial dimension yields an empty pyramid. -/
lemma pyramid_empty_of_zero_min {cfg : Config} {img : Image}
    (hdim : Min.min img.d2 img.d3 = 0) : pyramidScales cfg img = [] := by
  unfold pyramidScales
  rw [hdim]
  apply scalesOf_eq_nil
  norm_num

/-- With an empty pyramid, line 85 `np.vstack([])` raises. -/
lemma stage1_error_of_no_scales {cfg : Config} {nets : Nets} {img : Image}
    (h : pyramidScales cfg img = []) :
    (stage1 cfg nets img).1 = .error .vstackEmpty := by
  have hcol : stage1collected cfg nets img = [] := by
    unfold stage1collected stage1runs
    rw [h]
    rfl
  unfold stage1
  rw [if_pos hcol]

/-- A stage-1 error propagates unchanged out of the cascade body. -/
lemma forwardCore_error_of_stage1 {cfg : Config} {nets : Nets} {img : Image} {e : Err}
    (h : (stage1 cfg nets img).1 = .error e) :
    (forwardCore cfg nets img).1 = .error e := by
  unfold forwardCore
  rcases hsp : stage1 cfg nets img with ⟨res1, ev1⟩
  rw [hsp] at h
  have hres1 : res1 = .error e := h
  rw [hres1]

/-- Through the batch check, an empty pyramid makes `forward` raise the
`np.vstack` error. -/
lemma forward_vstack_of_no_scales {cfg : Config} {nets : Nets} {inp : InputTensor}
    (hbatch : inp.ndim = 3 ∨ inp.batch = 1)
    (h : pyramidScales cfg inp.img = []) :
    (forward cfg nets inp).1 = .error .vstackEmpty := by
  unfold forward
  have hb : (if inp.ndim = 3 then 1 else inp.batch) = 1 := by
    rcases hbatch with h3 | h1
    · rw [if_pos h3]
    · by_cases h3 : inp.ndim = 3
      · rw [if_pos h3]
      · rw [if_neg h3]
        exact h1
  simp only [hb, ne_eq, not_true_eq_false, if_false]
  exact forwardCore_error_of_stage1 (stage1_error_of_no_scales h)

/-- C1 (code-bug evidence): a 10x10 image with the default
`min_face_size = 20` has an empty scale pyramid, and `forward` then raises
the `np.vstack` ValueError instead of returning the empty pair that the
spec prescribes. -/
theorem empty_pyramid_vstack_crash :
    (forward cfgDefault netsTriv inp10).1 = .error .vstackEmpty
      ∧ pyramidScales cfgDefault inp10.img = [] := by
  have hp : pyramidScales cfgDefault inp10.img = [] := by
    unfold pyramidScales
    show scalesOf ((10 : ℕ) : ℚ) cfgDefault.minFaceSize = []
    apply scalesOf_eq_nil
    norm_num [cfgDefault]
  exact ⟨forward_vstack_of_no_scales (Or.inl rfl) hp, hp⟩

/-- C3 (amended): `forward` performs no input-dimension check - an image
with a zero spatial dimension is not rejected; it reaches pyramid
construction, which yields an empty scale list, and the call then fails
with the `np.vstack` ValueError, not with an InvalidInput precondition
error. -/
theorem zero_dimension_reaches_pyramid (cfg : Config) (nets : Nets) (inp : InputTensor)
    (hbatch : inp.ndim = 3 ∨ inp.batch = 1)
    (hdim : Min.min inp.img.d2 inp.img.d3 = 0) :
    (forward cfg nets inp).1 = .error .vstackEmpty
      ∧ pyramidScales cfg inp.img = [] := by
  have hp : pyramidScales cfg inp.img = [] := pyramid_empty_of_zero_min hdim
  exact ⟨forward_vstack_of_no_scales hbatch hp, hp⟩

/-- Witness for `zero_dimension_reaches_pyramid` on a 5x0 image. -/
theorem zero_dimension_reaches_pyramid_witness :
    (inpZero.ndim = 3 ∨ inpZero.batch = 1)
      ∧ Min.min inpZero.img.d2 inpZero.img.d3 = 0
      ∧ (forward cfgDefault netsTriv inpZero).1 = .error .vstackEmpty :=
  ⟨Or.inl rfl, rfl,
    (zero_dimension_reaches_pyramid cfgDefault netsTriv inpZero (Or.inl rfl) rfl).1⟩

/-- C3 (counterexample to the claim as stated): a 5x0 image is not rejected
with an InvalidInput error before pyramid construction - the call instead
fails with the `np.vstack` ValueError raised after the (empty) pyramid was
built. -/
theorem invalid_input_never_raised :
    (forward cfgDefault netsTriv inpZero).1 = .error .vstackEmpty
      ∧ (forward cfgDefault netsTriv inpZero).1 ≠ .error .invalidInput := by
  have h : (forward cfgDefault netsTriv inpZero).1 = .error .vstackEmpty :=
    forward_vstack_of_no_scales (Or.inl rfl) (pyramid_empty_of_zero_min rfl)
  refine ⟨h, ?_⟩
  rw [h]
  simp

/-- Evaluation helper: `Int.toNat` of a numeral. -/
lemma intToNat_lit (n : ℕ) : (no_index (OfNat.ofNat n) : ℤ).toNat = OfNat.ofNat n := rfl

/-- Evaluation helper: floor of the literal -13. -/
lemma intFloor_neg13 : ⌊(-13 : ℚ)⌋ = -13 := by
  rw [show (-13 : ℚ) = ((-13 : ℤ) : ℚ) by norm_num]
  exact Int.floor_intCast _

/-- Evaluation helper: rounding the literal -13. -/
lemma round_neg13 : round (-13 : ℚ) = -13 := by
  rw [show (-13 : ℚ) = ((-13 : ℤ) : ℚ) by norm_num]
  exact round_intCast _

/-- Evaluation helper: fractional part of the literal -13. -/
lemma intFract_neg13 : Int.fract (-13 : ℚ) = 0 := by
  rw [show (-13 : ℚ) = ((-13 : ℤ) : ℚ) by norm_num]
  exact Int.fract_intCast _

/-- The benign run's stage 1 finds the single candidate box. -/
lemma benign_stage1 : (stage1 cfgRun netsBenign img13).1 = .ok [⟨0, 0, 11, 11, 9/10⟩] := by
  norm_num [stage1, stage1runs, stage1collected, stage1merged, stage1keep, stage1boxes,
    pyramidScales, scalesOf, scaleLoop, runFirstStage, pnetGrid, resizedOf, genBboxes,
    interpolate, normalizeImg, ceilN, npRound, nms, nmsGo, withIdx, bestCand,
    overlapRatio, interArea, boxArea, index, calibrateList, calibrateBox,
    convertToSquare, roundBox, cfgRun, netsBenign, img13, pyrFactor,
    Int.floor_intCast, Int.floor_zero, Int.floor_ofNat, round_zero, round_ofNat,
    Int.floor_natCast, List.reduceOption, List.filterMap_cons,
    intToNat_lit, Int.toNat_zero, Int.toNat_one, Int.fract_zero,
    Int.fract_natCast, Int.fract_intCast, Int.ceil_ofNat, Int.ceil_intCast,
    Int.ceil_natCast, Int.ceil_zero, Int.ceil_one, Rat.num_ofNat]

/-- The benign run's stage 2 confirms the box with the R-Net score. -/
lemma benign_stage2boxes :
    stage2boxes cfgRun netsBenign img13 [⟨0, 0, 11, 11, 9/10⟩]
      = [⟨0, 0, 11, 11, 99/100⟩] := by
  norm_num [stage2boxes, stage2post, stage2keep, stage2keepNms, stage2outs,
    getImageBoxes, cropOK, whereGT, whereGTAux, setScores, nms, nmsGo, withIdx,
    bestCand, overlapRatio, interArea, boxArea, index, calibrateList, calibrateBox,
    convertToSquare, roundBox, npRound, cfgRun, netsBenign, img13,
    Int.floor_intCast, Int.floor_zero, Int.floor_ofNat, round_zero, round_ofNat,
    Int.floor_natCast, List.filterMap_cons, intToNat_lit, Int.fract_zero,
    Int.fract_natCast, Rat.num_ofNat]

/-- The benign run, end to end: one box, one landmark row, and the full
20-event trace. -/
lemma benign_forward : forward cfgRun netsBenign inpBenign
    = (.ok ([⟨0, 0, 11, 11, 99/100⟩], [⟨[6, 6, 6, 6, 6], [6, 6, 6, 6, 6]⟩]),
       [Ev.resize 1 13 13 .bilinear, Ev.normalizeEv 1, Ev.runNet 1 .pnet,
        Ev.thresholdFilter 1, Ev.nmsCall 1 (1/2) .union, Ev.nmsCall 1 (7/10) .union,
        Ev.calibrateCall 1, Ev.squareRound 1,
        Ev.cropExtract 2 24, Ev.runNet 2 .rnet, Ev.thresholdFilter 2,
        Ev.nmsCall 2 (7/10) .union, Ev.calibrateCall 2, Ev.squareRound 2,
        Ev.cropExtract 3 48, Ev.runNet 3 .onet, Ev.thresholdFilter 3,
        Ev.landmarkReproject 3, Ev.calibrateCall 3, Ev.nmsCall 3 (7/10) .min]) := by
  norm_num [forward, forwardCore, stage1, stage1runs, stage1collected, stage1merged,
    stage1keep, stage1boxes, stage2, stage2boxes, stage2post, stage2keep, stage2keepNms,
    stage2outs, stage3, stage3crops, stage3outs, stage3keep, stage3bb1, stage3offs1,
    stage3lms1, stage3lms2, stage3bb2, stage3keep2, stage3result, reprojectLm,
    pyramidScales, scalesOf, scaleLoop, runFirstStage, pnetGrid, resizedOf, genBboxes,
    interpolate, normalizeImg, ceilN, npRound, nms, nmsGo, withIdx, bestCand,
    overlapRatio, interArea, boxArea, index, calibrateList, calibrateBox,
    convertToSquare, roundBox, getImageBoxes, cropOK, whereGT, whereGTAux, setScores,
    cfgRun, netsBenign, img13, inpBenign, pyrFactor,
    Int.floor_intCast, Int.floor_zero, Int.floor_ofNat, round_zero, round_ofNat,
    Int.floor_natCast, List.reduceOption, List.filterMap_cons,
    intToNat_lit, Int.toNat_zero, Int.toNat_one, Int.fract_zero,
    Int.fract_natCast, Int.fract_intCast, Int.ceil_ofNat, Int.ceil_intCast,
    Int.ceil_natCast, Int.ceil_zero, Int.ceil_one, Rat.num_ofNat]

/-- The desynchronizing run's stage 1 keeps two boxes; calibration with the
offsets `(0, 0, -2, -2)` turned the lower-scored one degenerate. -/
lemma desync_stage1 : (stage1 cfgRun netsDesync img17).1
    = .ok [⟨4, 0, 15, 11, 19/20⟩, ⟨0, 0, -13, -13, 9/10⟩] := by
  have hceil : (⌈(12019 / 1000 : ℚ)⌉ : ℤ) = 13 := by
    rw [Int.ceil_eq_iff]
    norm_num
  have hrun1 : runFirstStage netsDesync img17 1 (3/5)
      = (some [⟨⟨4, 0, 15, 11, 19/20⟩, ⟨0, 0, 0, 0⟩⟩,
               ⟨⟨0, 0, 11, 11, 9/10⟩, ⟨0, 0, -2, -2⟩⟩],
         [Ev.resize 1 17 17 .bilinear, Ev.normalizeEv 1, Ev.runNet 1 .pnet,
          Ev.thresholdFilter 1, Ev.nmsCall 1 (1/2) .union]) := by
    norm_num [runFirstStage, pnetGrid, resizedOf, genBboxes, interpolate, normalizeImg,
      ceilN, npRound, nms, nmsGo, withIdx, bestCand, overlapRatio, interArea, boxArea,
      index, netsDesync, img17, Int.floor_intCast, Int.floor_zero, Int.floor_ofNat,
      round_zero, round_ofNat, Int.floor_natCast, List.filterMap_cons, intToNat_lit,
      Int.fract_zero, Int.fract_natCast, Int.ceil_ofNat, Int.ceil_zero, Rat.num_ofNat]
    simp
  have hrun2 : runFirstStage netsDesync img17 (707/1000) (3/5)
      = (none, [Ev.resize 1 13 13 .bilinear, Ev.normalizeEv 1, Ev.runNet 1 .pnet,
                Ev.thresholdFilter 1]) := by
    norm_num [runFirstStage, pnetGrid, resizedOf, genBboxes, interpolate, normalizeImg,
      ceilN, npRound, netsDesync, img17, hceil, intToNat_lit, List.filterMap_cons]
  have hscales : pyramidScales cfgRun img17 = [1, 707/1000] := by
    norm_num [pyramidScales, scalesOf, scaleLoop, cfgRun, img17, pyrFactor,
      Rat.num_ofNat, intToNat_lit]
  have ht1 : cfgRun.t1 = 3/5 := rfl
  have hn1 : cfgRun.n1 = 7/10 := rfl
  norm_num [stage1, stage1runs, hscales, ht1, hn1, hrun1, hrun2, stage1collected,
    stage1merged, stage1keep, stage1boxes, nms, nmsGo, withIdx, bestCand, overlapRatio,
    interArea, boxArea, index, calibrateList, calibrateBox, convertToSquare, roundBox,
    npRound, List.reduceOption, List.filterMap_cons, Int.floor_intCast, Int.floor_zero,
    Int.floor_ofNat, round_zero, round_ofNat, Int.floor_natCast, intToNat_lit,
    Int.fract_zero, Int.fract_natCast, intFloor_neg13, round_neg13, intFract_neg13]

/-- C6 (counterexample to the claim as stated): in the desynchronizing run,
stage 1 hands two boxes to stage 2, but crop extraction skips the
degenerate one, so R-Net returns only one offset/probability row - at the
stage-2 boundary the box array (length 2) and the network-output array
(length 1) are not equal-length. -/
theorem stage2_offsets_desync_counterexample :
    (stage1 cfgRun netsDesync img17).1
        = .ok [⟨4, 0, 15, 11, 19/20⟩, ⟨0, 0, -13, -13, 9/10⟩]
      ∧ (stage2outs netsDesync img17
            [⟨4, 0, 15, 11, 19/20⟩, ⟨0, 0, -13, -13, 9/10⟩]).length = 1
      ∧ ([(⟨4, 0, 15, 11, 19/20⟩ : Box), ⟨0, 0, -13, -13, 9/10⟩] : List Box).length
          = 2 := by
  refine ⟨desync_stage1, ?_, rfl⟩
  norm_num [stage2outs, getImageBoxes, cropOK, netsDesync, img17, Int.floor_intCast,
    Int.floor_zero, Int.floor_ofNat, Int.floor_natCast, intFloor_neg13,
    List.filterMap_cons]

/-- Witness for `candidate_arrays_aligned` on the benign complete run. -/
theorem candidate_arrays_aligned_witness :
    (stage1 cfgRun netsBenign img13).1 = .ok [⟨0, 0, 11, 11, 9/10⟩]
      ∧ (∀ b ∈ [(⟨0, 0, 11, 11, 9/10⟩ : Box)], cropOK img13 b = true)
      ∧ (stage2outs netsBenign img13 [⟨0, 0, 11, 11, 9/10⟩]).length
          = [(⟨0, 0, 11, 11, 9/10⟩ : Box)].length := by
  have h2 : ∀ b ∈ [(⟨0, 0, 11, 11, 9/10⟩ : Box)], cropOK img13 b = true := by
    norm_num [cropOK, img13, Int.floor_zero, Int.floor_ofNat]
  have h3 : ∀ b ∈ stage2boxes cfgRun netsBenign img13 [⟨0, 0, 11, 11, 9/10⟩],
      cropOK img13 b = true := by
    rw [benign_stage2boxes]
    norm_num [cropOK, img13, Int.floor_zero, Int.floor_ofNat]
  exact ⟨benign_stage1, h2,
    (candidate_arrays_aligned cfgRun netsBenign img13 _ benign_stage1 h2 h3).1⟩

/-- C4 (counterexample to the claim as stated): in the benign complete run,
stage 3's recorded operation order is network run, threshold filter,
calibration, NMS - not the claimed network run, threshold filter, NMS,
calibration. -/
theorem stage3_nms_before_calibration_refuted :
    stageOps 3 (forward cfgRun netsBenign inpBenign).2
        = [Ev.runNet 3 .onet, Ev.thresholdFilter 3, Ev.calibrateCall 3,
           Ev.nmsCall 3 (7/10) .min]
      ∧ stageOps 3 (forward cfgRun netsBenign inpBenign).2
          ≠ [Ev.runNet 3 .onet, Ev.thresholdFilter 3, Ev.nmsCall 3 (7/10) .min,
             Ev.calibrateCall 3] := by
  have h : stageOps 3 (forward cfgRun netsBenign inpBenign).2
      = [Ev.runNet 3 .onet, Ev.thresholdFilter 3, Ev.calibrateCall 3,
         Ev.nmsCall 3 (7/10) .min] := by
    rw [benign_forward]
    rfl
  refine ⟨h, ?_⟩
  rw [h]
  simp

/-- Witness for `cascade_stage_order` on the benign complete run. -/
theorem cascade_stage_order_witness :
    forward cfgRun netsBenign inpBenign
        = (.ok ([⟨0, 0, 11, 11, 99/100⟩], [⟨[6, 6, 6, 6, 6], [6, 6, 6, 6, 6]⟩]),
           [Ev.resize 1 13 13 .bilinear, Ev.normalizeEv 1, Ev.runNet 1 .pnet,
            Ev.thresholdFilter 1, Ev.nmsCall 1 (1/2) .union, Ev.nmsCall 1 (7/10) .union,
            Ev.calibrateCall 1, Ev.squareRound 1,
            Ev.cropExtract 2 24, Ev.runNet 2 .rnet, Ev.thresholdFilter 2,
            Ev.nmsCall 2 (7/10) .union, Ev.calibrateCall 2, Ev.squareRound 2,
            Ev.cropExtract 3 48, Ev.runNet 3 .onet, Ev.thresholdFilter 3,
            Ev.landmarkReproject 3, Ev.calibrateCall 3, Ev.nmsCall 3 (7/10) .min])
      ∧ stageOps 2
            [Ev.resize 1 13 13 .bilinear, Ev.normalizeEv 1, Ev.runNet 1 .pnet,
             Ev.thresholdFilter 1, Ev.nmsCall 1 (1/2) .union, Ev.nmsCall 1 (7/10) .union,
             Ev.calibrateCall 1, Ev.squareRound 1,
             Ev.cropExtract 2 24, Ev.runNet 2 .rnet, Ev.thresholdFilter 2,
             Ev.nmsCall 2 (7/10) .union, Ev.calibrateCall 2, Ev.squareRound 2,
             Ev.cropExtract 3 48, Ev.runNet 3 .onet, Ev.thresholdFilter 3,
             Ev.landmarkReproject 3, Ev.calibrateCall 3, Ev.nmsCall 3 (7/10) .min]
          = [Ev.runNet 2 .rnet, Ev.thresholdFilter 2, Ev.nmsCall 2 cfgRun.n2 .union,
             Ev.calibrateCall 2, Ev.squareRound 2] :=
  ⟨benign_forward,
    (cascade_stage_order cfgRun netsBenign inpBenign _ _ benign_forward).1⟩

/-- Witness for `stage3_landmarks_before_calibration` on the benign run's
stage-3 input. -/
theorem stage3_landmarks_before_calibration_witness :
    (stage3crops img13 [(⟨0, 0, 11, 11, 99/100⟩ : Box)]).length ≠ 0
      ∧ stage3keep2 cfgRun netsBenign img13 [⟨0, 0, 11, 11, 99/100⟩]
          = nms (calibrateList
                (stage3bb1 cfgRun netsBenign img13 [⟨0, 0, 11, 11, 99/100⟩])
                (stage3offs1 cfgRun netsBenign img13 [⟨0, 0, 11, 11, 99/100⟩]))
              cfgRun.n3 .min := by
  have hc : (stage3crops img13 [(⟨0, 0, 11, 11, 99/100⟩ : Box)]).length ≠ 0 := by
    norm_num [stage3crops, getImageBoxes, cropOK, img13, Int.floor_zero,
      Int.floor_ofNat]
  exact ⟨hc, (stage3_landmarks_before_calibration cfgRun netsBenign img13 _ hc).2⟩
